import Mathlib

/-!
# simple-s3: a shallow embedding of `main.go`

The program is a command-line tool with one command group, `bucket`, and eight
subcommands.  Every handler reads flags, builds a client configuration, talks to
the storage provider once and prints a line.

The embedding is by explicit state passing.  A `World` carries the local file
system and the ordered trace of everything the program did that is visible from
outside it: lines written to standard output, configuration loads, client
constructions, provider API calls, and file or stream handles being acquired and
released.  An `Env` is the environment the program runs in: what the
configuration loader, the provider and the operating system answer.  The theorems
quantify over every `Env`, every flag assignment and every initial file system.
-/

namespace SimpleS3

/-! ## Data model -/

/-- File and object contents: a sequence of byte values. -/
abbrev Bytes := List Nat

/-- The eight subcommands registered under `bucket` in `main` (lines 417-424). -/
inductive Subcommand where
  | create
  | delete
  | list
  | info
  | upload
  | download
  | listObjects
  | deleteObject
  deriving DecidableEq, Repr

/-- The name of a command: the first word of its `Use` field (`cmd.Name()`). -/
def Subcommand.Name : Subcommand → String
  | .create => "create"
  | .delete => "delete"
  | .list => "list"
  | .info => "info"
  | .upload => "upload"
  | .download => "download"
  | .listObjects => "list-objects"
  | .deleteObject => "delete-object"

/-- The flag values of one invocation (function `init`, lines 399-411).  All flags
are strings with default `""`; `name`, `region` and `profile` are persistent flags
of `bucket`, the others belong to single subcommands. -/
structure Flags where
  name : String := ""
  region : String := ""
  profile : String := ""
  file : String := ""
  key : String := ""
  output : String := ""
  Prefix : String := ""
  deriving DecidableEq, Repr

/-- The package-level variables `bucketName`, `region`, `profile` (lines 15-19). -/
structure Globals where
  bucketName : String := ""
  region : String := ""
  profile : String := ""
  deriving DecidableEq, Repr

/-- One option passed to `config.LoadDefaultConfig`. -/
inductive CfgOpt where
  | WithSharedConfigProfile (profile : String)
  | WithRegion (region : String)
  deriving DecidableEq, Repr

/-- A loaded configuration, identified by the options it was loaded with. -/
structure Config where
  opts : List CfgOpt
  deriving DecidableEq, Repr

/-- Value of `types.CreateBucketConfiguration`. -/
structure CreateBucketConfiguration where
  LocationConstraint : String
  deriving DecidableEq, Repr

/-- Value of `s3.CreateBucketInput`; an absent configuration is a nil pointer. -/
structure CreateBucketInput where
  Bucket : String
  CreateBucketConfiguration : Option CreateBucketConfiguration := none
  deriving DecidableEq, Repr

/-- An open local file as handed to `PutObject`: its path and what can be read from it. -/
structure File where
  path : String
  contents : Bytes
  deriving DecidableEq, Repr

/-- The response body of `GetObject`, a stream: successive `Read` calls deliver
`chunks` in order, and the read after the last chunk reports end of file when
`err` is `none` and the given error otherwise. -/
structure Body where
  chunks : List Bytes
  err : Option String := none
  deriving DecidableEq, Repr

/-- All bytes a body delivers before its stream ends. -/
def Body.bytes (b : Body) : Bytes := b.chunks.flatten

/-- An entry of `ListBucketsOutput.Buckets`; the creation date is carried in its
`%v` rendering. -/
structure Bucket where
  Name : String
  CreationDate : String
  deriving DecidableEq, Repr

/-- The `Size` field of `types.Object`.  The declaration of the field belongs to
the provider SDK, whose release the repository does not fix, and it differs
between releases: an `int64` value in the older ones, a pointer `*int64` in the
newer ones.  Both are represented: a value, or a non-nil pointer with its address
and the size it points to. -/
inductive SizeField where
  | value (n : Int)
  | pointer (addr : Nat) (pointee : Int)
  deriving DecidableEq, Repr

/-- The size of the object a `Size` field stands for. -/
def SizeField.size : SizeField → Int
  | .value n => n
  | .pointer _ n => n

/-- What the verb `%d` of `fmt.Printf` prints for a `Size` field passed as it
is: the decimal number for an `int64` value, and for a pointer the address in
decimal, since the verb does not follow pointers. -/
def SizeField.fmtD : SizeField → String
  | .value n => toString n
  | .pointer addr _ => toString addr

/-- An entry of `ListObjectsV2Output.Contents`. -/
structure Object where
  Key : String
  Size : SizeField
  deriving DecidableEq, Repr

/-- A provider API call together with its input. -/
inductive ApiCall where
  | CreateBucket (input : CreateBucketInput)
  | DeleteBucket (bucket : String)
  | ListBuckets
  | GetBucketLocation (bucket : String)
  | PutObject (bucket key : String) (body : File)
  | GetObject (bucket key : String)
  | ListObjectsV2 (bucket : String) (Prefix : String)
  | DeleteObject (bucket key : String)
  deriving DecidableEq, Repr

/-- The operation a call belongs to, without its input. -/
inductive ApiKind where
  | CreateBucket
  | DeleteBucket
  | ListBuckets
  | GetBucketLocation
  | PutObject
  | GetObject
  | ListObjectsV2
  | DeleteObject
  deriving DecidableEq, Repr

/-- The operation of a recorded call. -/
def ApiCall.kind : ApiCall → ApiKind
  | .CreateBucket _ => .CreateBucket
  | .DeleteBucket _ => .DeleteBucket
  | .ListBuckets => .ListBuckets
  | .GetBucketLocation _ => .GetBucketLocation
  | .PutObject _ _ _ => .PutObject
  | .GetObject _ _ => .GetObject
  | .ListObjectsV2 _ _ => .ListObjectsV2
  | .DeleteObject _ _ => .DeleteObject

/-- The operation each subcommand's handler calls. -/
def Subcommand.api : Subcommand → ApiKind
  | .create => .CreateBucket
  | .delete => .DeleteBucket
  | .list => .ListBuckets
  | .info => .GetBucketLocation
  | .upload => .PutObject
  | .download => .GetObject
  | .listObjects => .ListObjectsV2
  | .deleteObject => .DeleteObject

/-- A resource that has to be released with `Close`. -/
inductive Handle where
  | localFile (path : String)
  | responseBody (bucket key : String)
  deriving DecidableEq, Repr

/-- Everything the program does that is visible from outside it, in order. -/
inductive Event where
  | stdout (text : String)
  | loadConfig (opts : List CfgOpt)
  | newClient (cfg : Config)
  | api (call : ApiCall)
  | acquired (h : Handle)
  | released (h : Handle)
  deriving DecidableEq, Repr

/-- The local file system: the contents of each existing path. -/
abbrev FileSystem := String → Option Bytes

/-- The state threaded through an invocation. -/
structure World where
  files : FileSystem
  trace : List Event := []

/-- The state a process starts in: the given file system and nothing done yet. -/
def World.init (fs : FileSystem) : World := { files := fs, trace := [] }

/-- Append one event to the trace. -/
def World.emit (w : World) (e : Event) : World := { w with trace := w.trace ++ [e] }

/-- The environment of a run: the answers of the collaborators the program calls.
An `Except.error` carries the text of the Go error value. -/
structure Env where
  LoadDefaultConfig : List CfgOpt → Except String Config
  CreateBucket : Config → CreateBucketInput → Except String Unit
  DeleteBucket : Config → String → Except String Unit
  ListBuckets : Config → Except String (List Bucket)
  GetBucketLocation : Config → String → Except String String
  PutObject : Config → String → String → File → Except String Unit
  GetObject : Config → String → String → Except String Body
  ListObjectsV2 : Config → String → String → Except String (List Object)
  DeleteObject : Config → String → String → Except String Unit
  openDenied : String → Option String
  createDenied : String → Option String
  diskLimit : Option Nat

/-! ## The library calls the handlers make -/

/-- Go `fmt.Println`: the operands separated by single spaces, then a newline, on
standard output. -/
def fmt.Println (args : List String) (w : World) : World :=
  w.emit (.stdout (" ".intercalate args ++ "\n"))

/-- Go `fmt.Printf` with the format already applied to its operands. -/
def fmt.Printf (text : String) (w : World) : World :=
  w.emit (.stdout text)

/-- Call of `config.LoadDefaultConfig(context.TODO(), cfgOpts...)`. -/
def config.LoadDefaultConfig (env : Env) (cfgOpts : List CfgOpt) (w : World) :
    Except String Config × World :=
  (env.LoadDefaultConfig cfgOpts, w.emit (.loadConfig cfgOpts))

/-- A client built by `s3.NewFromConfig`. -/
structure Client where
  cfg : Config
  deriving DecidableEq, Repr

/-- Call of `s3.NewFromConfig(cfg)`; it cannot fail. -/
def s3.NewFromConfig (cfg : Config) (w : World) : Client × World :=
  ({ cfg := cfg }, w.emit (.newClient cfg))

/-- Call of `client.CreateBucket`. -/
def Client.CreateBucket (env : Env) (c : Client) (input : CreateBucketInput) (w : World) :
    Except String Unit × World :=
  (env.CreateBucket c.cfg input, w.emit (.api (.CreateBucket input)))

/-- Call of `client.DeleteBucket`. -/
def Client.DeleteBucket (env : Env) (c : Client) (bucket : String) (w : World) :
    Except String Unit × World :=
  (env.DeleteBucket c.cfg bucket, w.emit (.api (.DeleteBucket bucket)))

/-- Call of `client.ListBuckets`. -/
def Client.ListBuckets (env : Env) (c : Client) (w : World) :
    Except String (List Bucket) × World :=
  (env.ListBuckets c.cfg, w.emit (.api .ListBuckets))

/-- Call of `client.GetBucketLocation`; the answer is the `LocationConstraint`
of the output. -/
def Client.GetBucketLocation (env : Env) (c : Client) (bucket : String) (w : World) :
    Except String String × World :=
  (env.GetBucketLocation c.cfg bucket, w.emit (.api (.GetBucketLocation bucket)))

/-- Call of `client.PutObject`. -/
def Client.PutObject (env : Env) (c : Client) (bucket key : String) (body : File) (w : World) :
    Except String Unit × World :=
  (env.PutObject c.cfg bucket key body, w.emit (.api (.PutObject bucket key body)))

/-- Call of `client.GetObject`.  A successful call hands over an open response
body, which the caller has to close. -/
def Client.GetObject (env : Env) (c : Client) (bucket key : String) (w : World) :
    Except String Body × World :=
  let w := w.emit (.api (.GetObject bucket key))
  match env.GetObject c.cfg bucket key with
  | .error err => (.error err, w)
  | .ok body => (.ok body, w.emit (.acquired (.responseBody bucket key)))

/-- Call of `client.ListObjectsV2`; the answer is the `Contents` of the output. -/
def Client.ListObjectsV2 (env : Env) (c : Client) (bucket pfx : String) (w : World) :
    Except String (List Object) × World :=
  (env.ListObjectsV2 c.cfg bucket pfx, w.emit (.api (.ListObjectsV2 bucket pfx)))

/-- Call of `client.DeleteObject`. -/
def Client.DeleteObject (env : Env) (c : Client) (bucket key : String) (w : World) :
    Except String Unit × World :=
  (env.DeleteObject c.cfg bucket key, w.emit (.api (.DeleteObject bucket key)))

/-- Go `os.Open`: opens an existing file for reading.  It fails when the
environment denies access or when the path does not exist. -/
def os.Open (env : Env) (path : String) (w : World) : Except String File × World :=
  match env.openDenied path with
  | some err => (.error err, w)
  | none =>
    match w.files path with
    | none => (.error ("open " ++ path ++ ": no such file or directory"), w)
    | some contents =>
      (.ok { path := path, contents := contents }, w.emit (.acquired (.localFile path)))

/-- The file system after `path` was created or truncated: it holds an empty
file at `path` and is otherwise unchanged. -/
def truncated (fs : FileSystem) (path : String) : FileSystem :=
  fun p => if p = path then some [] else fs p

/-- Go `os.Create`: creates the file, or truncates it when it exists, and opens
it for writing.  It fails when the environment denies it. -/
def os.Create (env : Env) (path : String) (w : World) : Except String String × World :=
  match env.createDenied path with
  | some err => (.error err, w)
  | none =>
    (.ok path, { w with files := truncated w.files path }.emit (.acquired (.localFile path)))

/-- Release of a file or of a response body (`Close`); its result is ignored by
every caller. -/
def Close (h : Handle) (w : World) : World := w.emit (.released h)

/-- One `Write` on the file created at `path`: the bytes are appended.  When the
environment has a `diskLimit` and the file would grow beyond it, only the bytes
that still fit are written and the call reports the path error
"write PATH: no space left on device".  Returns the number of bytes written and
the error. -/
def File.Write (env : Env) (path : String) (p : Bytes) (fs : FileSystem) :
    (Nat × Option String) × FileSystem :=
  let old := (fs path).getD []
  let room :=
    match env.diskLimit with
    | none => p.length
    | some limit => min p.length (limit - old.length)
  let fs1 : FileSystem := fun q => if q = path then some (old ++ p.take room) else fs q
  if room < p.length then ((room, some ("write " ++ path ++ ": no space left on device")), fs1)
  else ((room, none), fs1)

/-- Go `io.Copy(dst, src)`: reads `src` until end of file or an error and writes
everything read to `dst`.  The loop of the library: after each `Read` that
delivered bytes they are written, and a failed write stops the copy with the write
error; a `Read` reporting end of file stops it without error; any other read
error stops it with that error.  Returns the number of bytes written and the first
error met.  The source is given by its chunks and its final read error. -/
def io.Copy (env : Env) (dst : String) : List Bytes → Option String → FileSystem →
    (Nat × Option String) × FileSystem
  | [], rerr, fs => ((0, rerr), fs)
  | chunk :: rest, rerr, fs =>
    if chunk.length > 0 then
      let (wrote, fs1) := File.Write env dst chunk fs
      match wrote.2 with
      | some ew => ((wrote.1, some ew), fs1)
      | none =>
        let (more, fs2) := io.Copy env dst rest rerr fs1
        ((wrote.1 + more.1, more.2), fs2)
    else io.Copy env dst rest rerr fs

/-! ## The commands of `main.go` -/

/-- The hook `bucketCmd.PersistentPreRunE` (lines 29-45).  It stores the three
persistent flags in the package variables and, for every command whose name is
not `list`, rejects an empty bucket name or region.  Returns the package
variables, the returned error (`none` for `nil`) and the world. -/
def bucketCmd.PersistentPreRunE (cmd : Subcommand) (flags : Flags) (w : World) :
    Globals × Option String × World :=
  let g : Globals :=
    { bucketName := flags.name, region := flags.region, profile := flags.profile }
  if cmd.Name ≠ "list" then
    if g.bucketName = "" ∨ g.region = "" then
      (g, some "bucket and region must be set via flags", w)
    else
      let w := fmt.Println ["Using bucket:", g.bucketName, "in", g.region] w
      let w := if g.profile ≠ "" then fmt.Println ["Using AWS profile:", g.profile] w else w
      (g, none, w)
  else
    (g, none, w)

/-- The handler `createCmd.Run` (lines 51-90). -/
def createCmd.Run (env : Env) (g : Globals) (w : World) : World :=
  if g.bucketName = "" ∨ g.region = "" then
    fmt.Println ["Bucket and region must be set first with the \x27bucket\x27 command"] w
  else
    let cfgOpts : List CfgOpt := []
    let cfgOpts :=
      if g.profile ≠ "" then cfgOpts ++ [CfgOpt.WithSharedConfigProfile g.profile] else cfgOpts
    let cfgOpts := cfgOpts ++ [CfgOpt.WithRegion g.region]
    let (loaded, w) := config.LoadDefaultConfig env cfgOpts w
    match loaded with
    | .error err => fmt.Println ["Error loading AWS config:", err] w
    | .ok cfg =>
      let input : CreateBucketInput := { Bucket := g.bucketName }
      let input :=
        if g.region ≠ "us-east-1" then
          { input with CreateBucketConfiguration := some { LocationConstraint := g.region } }
        else input
      let (client, w) := s3.NewFromConfig cfg w
      let (res, w) := client.CreateBucket env input w
      match res with
      | .error err => fmt.Println ["Error creating bucket:", err] w
      | .ok _ => fmt.Println ["Bucket created successfully:", g.bucketName] w

/-- The handler `deleteCmd.Run` (lines 96-127). -/
def deleteCmd.Run (env : Env) (g : Globals) (w : World) : World :=
  if g.bucketName = "" ∨ g.region = "" then
    fmt.Println ["Bucket and region must be set first with the \x27bucket\x27 command"] w
  else
    let cfgOpts : List CfgOpt := []
    let cfgOpts :=
      if g.profile ≠ "" then cfgOpts ++ [CfgOpt.WithSharedConfigProfile g.profile] else cfgOpts
    let cfgOpts := cfgOpts ++ [CfgOpt.WithRegion g.region]
    let (loaded, w) := config.LoadDefaultConfig env cfgOpts w
    match loaded with
    | .error err => fmt.Println ["Error loading AWS config:", err] w
    | .ok cfg =>
      let (client, w) := s3.NewFromConfig cfg w
      let (res, w) := client.DeleteBucket env g.bucketName w
      match res with
      | .error err => fmt.Println ["Error deleting bucket:", err] w
      | .ok _ => fmt.Println ["Bucket deleted successfully:", g.bucketName] w

/-- The text of `fmt.Printf(" - %s (created: %v)\n", *b.Name, *b.CreationDate)`
(line 155). -/
def bucketLine (b : Bucket) : String :=
  " - " ++ b.Name ++ " (created: " ++ b.CreationDate ++ ")\n"

/-- The loop over `output.Buckets` (lines 154-156). -/
def printBuckets : List Bucket → World → World
  | [], w => w
  | b :: rest, w => printBuckets rest (fmt.Printf (bucketLine b) w)

/-- The handler `listCmd.Run` (lines 133-157). -/
def listCmd.Run (env : Env) (g : Globals) (w : World) : World :=
  let cfgOpts : List CfgOpt := []
  let cfgOpts :=
    if g.profile ≠ "" then cfgOpts ++ [CfgOpt.WithSharedConfigProfile g.profile] else cfgOpts
  let (loaded, w) := config.LoadDefaultConfig env cfgOpts w
  match loaded with
  | .error err => fmt.Println ["Error loading AWS config:", err] w
  | .ok cfg =>
    let (client, w) := s3.NewFromConfig cfg w
    let (res, w) := client.ListBuckets env w
    match res with
    | .error err => fmt.Println ["Error listing buckets:", err] w
    | .ok output =>
      let w := fmt.Println ["Buckets:"] w
      printBuckets output w

/-- The handler `infoCmd.Run` (lines 163-197). -/
def infoCmd.Run (env : Env) (g : Globals) (w : World) : World :=
  if g.bucketName = "" ∨ g.region = "" then
    fmt.Println ["Bucket and region must be set via flags"] w
  else
    let cfgOpts : List CfgOpt := []
    let cfgOpts :=
      if g.profile ≠ "" then cfgOpts ++ [CfgOpt.WithSharedConfigProfile g.profile] else cfgOpts
    let cfgOpts := cfgOpts ++ [CfgOpt.WithRegion g.region]
    let (loaded, w) := config.LoadDefaultConfig env cfgOpts w
    match loaded with
    | .error err => fmt.Println ["Error loading AWS config:", err] w
    | .ok cfg =>
      let (client, w) := s3.NewFromConfig cfg w
      let (res, w) := client.GetBucketLocation env g.bucketName w
      match res with
      | .error err => fmt.Println ["Error getting bucket location:", err] w
      | .ok loc =>
        let regionStr := loc
        let regionStr := if regionStr = "" then "us-east-1" else regionStr
        fmt.Printf ("Bucket: " ++ g.bucketName ++ "\nRegion: " ++ regionStr ++ "\n") w

/-- The handler `uploadCmd.Run` (lines 203-249).  The deferred `file.Close()`
runs when the handler returns, on each path after the file was opened. -/
def uploadCmd.Run (env : Env) (g : Globals) (flags : Flags) (w : World) : World :=
  if g.bucketName = "" ∨ g.region = "" then
    fmt.Println ["Bucket and region must be set via flags"] w
  else
    let filePath := flags.file
    let key := flags.key
    if filePath = "" ∨ key = "" then
      fmt.Println ["You must provide both --file and --key"] w
    else
      let cfgOpts : List CfgOpt := []
      let cfgOpts :=
        if g.profile ≠ "" then cfgOpts ++ [CfgOpt.WithSharedConfigProfile g.profile] else cfgOpts
      let cfgOpts := cfgOpts ++ [CfgOpt.WithRegion g.region]
      let (loaded, w) := config.LoadDefaultConfig env cfgOpts w
      match loaded with
      | .error err => fmt.Println ["Error loading AWS config:", err] w
      | .ok cfg =>
        let (client, w) := s3.NewFromConfig cfg w
        let (opened, w) := os.Open env filePath w
        match opened with
        | .error err => fmt.Println ["Error opening file:", err] w
        | .ok file =>
          let w :=
            let (res, w) := client.PutObject env g.bucketName key file w
            match res with
            | .error err => fmt.Println ["Error uploading file:", err] w
            | .ok _ => fmt.Println ["File uploaded successfully:", key] w
          Close (.localFile file.path) w

/-- The handler `downloadCmd.Run` (lines 255-307).  The deferred calls run in
reverse order when the handler returns: `outFile.Close()` if the output file was
created, then `outputObj.Body.Close()`. -/
def downloadCmd.Run (env : Env) (g : Globals) (flags : Flags) (w : World) : World :=
  if g.bucketName = "" ∨ g.region = "" then
    fmt.Println ["Bucket and region must be set via flags"] w
  else
    let key := flags.key
    let output := flags.output
    if key = "" ∨ output = "" then
      fmt.Println ["You must provide both --key and --output"] w
    else
      let cfgOpts : List CfgOpt := []
      let cfgOpts :=
        if g.profile ≠ "" then cfgOpts ++ [CfgOpt.WithSharedConfigProfile g.profile] else cfgOpts
      let cfgOpts := cfgOpts ++ [CfgOpt.WithRegion g.region]
      let (loaded, w) := config.LoadDefaultConfig env cfgOpts w
      match loaded with
      | .error err => fmt.Println ["Error loading AWS config:", err] w
      | .ok cfg =>
        let (client, w) := s3.NewFromConfig cfg w
        let (res, w) := client.GetObject env g.bucketName key w
        match res with
        | .error err => fmt.Println ["Error downloading file:", err] w
        | .ok outputObj =>
          let w :=
            let (created, w) := os.Create env output w
            match created with
            | .error err => fmt.Println ["Error creating output file:", err] w
            | .ok outFile =>
              let w :=
                let (copied, fs) := io.Copy env outFile outputObj.chunks outputObj.err w.files
                let w := { w with files := fs }
                match copied.2 with
                | some err => fmt.Println ["Error saving file:", err] w
                | none => fmt.Println ["File downloaded successfully:", output] w
              Close (.localFile outFile) w
          Close (.responseBody g.bucketName key) w

/-- The text of `fmt.Printf(" - %s (size: %d)\n", *obj.Key, obj.Size)` (line 351):
the key is dereferenced, the `Size` field is passed as it is. -/
def objectLine (obj : Object) : String :=
  " - " ++ obj.Key ++ " (size: " ++ obj.Size.fmtD ++ ")\n"

/-- The loop over `output.Contents` (lines 350-352). -/
def printObjects : List Object → World → World
  | [], w => w
  | obj :: rest, w => printObjects rest (fmt.Printf (objectLine obj) w)

/-- The handler `listObjectsCmd.Run` (lines 313-353). -/
def listObjectsCmd.Run (env : Env) (g : Globals) (flags : Flags) (w : World) : World :=
  if g.bucketName = "" ∨ g.region = "" then
    fmt.Println ["Bucket and region must be set via flags"] w
  else
    let pfx := flags.Prefix
    let cfgOpts : List CfgOpt := []
    let cfgOpts :=
      if g.profile ≠ "" then cfgOpts ++ [CfgOpt.WithSharedConfigProfile g.profile] else cfgOpts
    let cfgOpts := cfgOpts ++ [CfgOpt.WithRegion g.region]
    let (loaded, w) := config.LoadDefaultConfig env cfgOpts w
    match loaded with
    | .error err => fmt.Println ["Error loading AWS config:", err] w
    | .ok cfg =>
      let (client, w) := s3.NewFromConfig cfg w
      let (res, w) := client.ListObjectsV2 env g.bucketName pfx w
      match res with
      | .error err => fmt.Println ["Error listing objects:", err] w
      | .ok output =>
        if output.length = 0 then
          fmt.Println ["No objects found in bucket"] w
        else
          let w := fmt.Println ["Objects:"] w
          printObjects output w

/-- The handler `deleteObjectCmd.Run` (lines 359-395). -/
def deleteObjectCmd.Run (env : Env) (g : Globals) (flags : Flags) (w : World) : World :=
  if g.bucketName = "" ∨ g.region = "" then
    fmt.Println ["Bucket and region must be set via flags"] w
  else
    let key := flags.key
    if key = "" then
      fmt.Println ["You must provide --key to delete an object"] w
    else
      let cfgOpts : List CfgOpt := []
      let cfgOpts :=
        if g.profile ≠ "" then cfgOpts ++ [CfgOpt.WithSharedConfigProfile g.profile] else cfgOpts
      let cfgOpts := cfgOpts ++ [CfgOpt.WithRegion g.region]
      let (loaded, w) := config.LoadDefaultConfig env cfgOpts w
      match loaded with
      | .error err => fmt.Println ["Error loading AWS config:", err] w
      | .ok cfg =>
        let (client, w) := s3.NewFromConfig cfg w
        let (res, w) := client.DeleteObject env g.bucketName key w
        match res with
        | .error err => fmt.Println ["Error deleting object:", err] w
        | .ok _ => fmt.Println ["Object deleted successfully:", key] w

/-- The `Run` field of each subcommand. -/
def Subcommand.Run (cmd : Subcommand) (env : Env) (g : Globals) (flags : Flags) (w : World) :
    World :=
  match cmd with
  | .create => createCmd.Run env g w
  | .delete => deleteCmd.Run env g w
  | .list => listCmd.Run env g w
  | .info => infoCmd.Run env g w
  | .upload => uploadCmd.Run env g flags w
  | .download => downloadCmd.Run env g flags w
  | .listObjects => listObjectsCmd.Run env g flags w
  | .deleteObject => deleteObjectCmd.Run env g flags w

/-- What `rootCmd.Execute()` does for an invocation `bucket <cmd>` whose flags
parsed to `flags`: the command framework first runs the `PersistentPreRunE` hook
of the command group; when the hook returns an error, that error is the result
and the handler is not called; otherwise the handler runs and the result is
`nil`, since the handlers are `Run` functions without a result.  What the
framework itself reports about a failed hook goes to standard error, which the
trace does not record. -/
def rootCmd.Execute (env : Env) (cmd : Subcommand) (flags : Flags) (w : World) :
    Option String × World :=
  let (g, hookErr, w) := bucketCmd.PersistentPreRunE cmd flags w
  match hookErr with
  | some err => (some err, w)
  | none => (none, cmd.Run env g flags w)

/-- The function `main` (lines 414-430) for an invocation `bucket <cmd>`: the
exit status of the process and the final world.  An error returned by `Execute`
is printed and the process exits with status 1; otherwise `main` returns and the
status is 0. -/
def main (env : Env) (cmd : Subcommand) (flags : Flags) (fs : FileSystem) : Nat × World :=
  let (result, w) := rootCmd.Execute env cmd flags (World.init fs)
  match result with
  | some err => (1, fmt.Println [err] w)
  | none => (0, w)

/-! ## Observations on a trace -/

/-- The provider API calls recorded in a trace, in order. -/
def apiCalls (trace : List Event) : List ApiCall :=
  trace.filterMap fun e =>
    match e with
    | .api c => some c
    | _ => none

/-- The texts written to standard output, one per print call, in order. -/
def stdoutWrites (trace : List Event) : List String :=
  trace.filterMap fun e =>
    match e with
    | .stdout s => some s
    | _ => none

/-- An event other than a write to standard output: loading configuration,
building a client, calling the provider, opening or closing a file or stream. -/
def Event.isEffect : Event → Bool
  | .stdout _ => false
  | _ => true

/-- The handles still held at the end of a trace: each acquisition adds the
handle, each later release removes it. -/
def heldAfter : List Handle → List Event → List Handle
  | held, [] => held
  | held, .acquired h :: rest => heldAfter (h :: held) rest
  | held, .released h :: rest => heldAfter (held.erase h) rest
  | held, _ :: rest => heldAfter held rest

/-- The option list built at lines 57-61, and by the same lines of every handler
except `listCmd.Run`: the profile option when a profile is given, then the region. -/
def regionalOpts (profile region : String) : List CfgOpt :=
  (if profile ≠ "" then [CfgOpt.WithSharedConfigProfile profile] else [])
    ++ [CfgOpt.WithRegion region]

/-- The lines `bucketCmd.PersistentPreRunE` prints once name and region are
accepted (lines 38-41). -/
def preRunWrites (flags : Flags) : List String :=
  ["Using bucket: " ++ flags.name ++ " in " ++ flags.region ++ "\n"]
    ++ (if flags.profile ≠ "" then ["Using AWS profile: " ++ flags.profile ++ "\n"] else [])

/-- An environment in which every collaborator answers successfully: the bucket
lies in the default region, the object body arrives in two chunks, and the bucket
holds two objects, listed with `int64` sizes. -/
def demoEnv : Env where
  LoadDefaultConfig := fun opts => .ok { opts := opts }
  CreateBucket := fun _ _ => .ok ()
  DeleteBucket := fun _ _ => .ok ()
  ListBuckets := fun _ => .ok [{ Name := "mybucket", CreationDate := "2024-01-01" }]
  GetBucketLocation := fun _ _ => .ok ""
  PutObject := fun _ _ _ _ => .ok ()
  GetObject := fun _ _ _ => .ok { chunks := [[1, 2], [3]] }
  ListObjectsV2 := fun _ _ _ =>
    .ok [{ Key := "a.txt", Size := .value 3 }, { Key := "b", Size := .value 0 }]
  DeleteObject := fun _ _ _ => .ok ()
  openDenied := fun _ => none
  createDenied := fun _ => none
  diskLimit := none

/-- The environment `demoEnv` with an empty bucket. -/
def emptyBucketEnv : Env := { demoEnv with ListObjectsV2 := fun _ _ _ => .ok [] }

/-- The environment `demoEnv` with a bucket holding the three-byte object `a.txt`,
listed by an SDK release whose `Size` field is a pointer. -/
def pointerSizeEnv : Env :=
  { demoEnv with
    ListObjectsV2 := fun _ _ _ => .ok [{ Key := "a.txt", Size := .pointer 824634228896 3 }] }

/-- A file system with a single file `in.bin`. -/
def demoFs : FileSystem := fun p => if p = "in.bin" then some [7, 8] else none

/-! ## Theorems -/

/-! ### What one print call writes -/

/-- A `Println` of one operand writes the operand and a newline. -/
theorem Println_one (a : String) (w : World) :
    fmt.Println [a] w = w.emit (.stdout (a ++ "\n")) := by
  simp [fmt.Println, String.intercalate, String.intercalate.go]

/-- A `Println` of two operands separates them by one space. -/
theorem Println_two (a b : String) (w : World) :
    fmt.Println [a, b] w = w.emit (.stdout (a ++ " " ++ b ++ "\n")) := by
  simp [fmt.Println, String.intercalate, String.intercalate.go]

/-- A `Println` of four operands separates them by single spaces. -/
theorem Println_four (a b c d : String) (w : World) :
    fmt.Println [a, b, c, d] w
      = w.emit (.stdout (a ++ " " ++ b ++ " " ++ c ++ " " ++ d ++ "\n")) := by
  simp [fmt.Println, String.intercalate, String.intercalate.go]

/-! ### The printing loops -/

/-- The bucket loop appends one line per bucket and touches no file. -/
theorem printBuckets_eq (buckets : List Bucket) :
    ∀ w : World, printBuckets buckets w
      = { files := w.files, trace := w.trace ++ buckets.map fun b => Event.stdout (bucketLine b) } := by
  induction buckets with
  | nil => intro w; simp [printBuckets]
  | cons b rest ih => intro w; simp [printBuckets, ih, fmt.Printf, World.emit]

/-- The object loop appends one line per object and touches no file. -/
theorem printObjects_eq (objs : List Object) :
    ∀ w : World, printObjects objs w
      = { files := w.files, trace := w.trace ++ objs.map fun o => Event.stdout (objectLine o) } := by
  induction objs with
  | nil => intro w; simp [printObjects]
  | cons o rest ih => intro w; simp [printObjects, ih, fmt.Printf, World.emit]

/-- The calls of a concatenated trace. -/
theorem apiCalls_append (a b : List Event) : apiCalls (a ++ b) = apiCalls a ++ apiCalls b := by
  simp [apiCalls]

/-- The calls of a trace, event by event. -/
theorem apiCalls_cons (e : Event) (l : List Event) :
    apiCalls (e :: l)
      = (match e with
        | .api c => [c]
        | _ => []) ++ apiCalls l := by
  cases e <;> simp [apiCalls]

/-- Printing issues no call. -/
theorem apiCalls_map_stdout {α : Type} (f : α → String) (l : List α) :
    apiCalls (l.map fun x => Event.stdout (f x)) = [] := by
  induction l with
  | nil => rfl
  | cons x rest ih => simp [apiCalls_cons, ih]

/-- The writes of a trace, event by event. -/
theorem stdoutWrites_cons (e : Event) (l : List Event) :
    stdoutWrites (e :: l)
      = (match e with
        | .stdout s => [s]
        | _ => []) ++ stdoutWrites l := by
  cases e <;> simp [stdoutWrites]

/-- The writes of a concatenated trace. -/
theorem stdoutWrites_append (a b : List Event) :
    stdoutWrites (a ++ b) = stdoutWrites a ++ stdoutWrites b := by
  simp [stdoutWrites]

/-- The writes of a run of prints are the printed texts. -/
theorem stdoutWrites_map_stdout {α : Type} (f : α → String) (l : List α) :
    stdoutWrites (l.map fun x => Event.stdout (f x)) = l.map f := by
  induction l with
  | nil => rfl
  | cons x rest ih => simp [stdoutWrites_cons, ih]

/-! ### Writing and copying -/

/-- A `Write` that reports no error appended all of its bytes to the file and
left every other path alone. -/
theorem Write_ok (env : Env) (dst : String) (p : Bytes) (fs : FileSystem)
    (h : (File.Write env dst p fs).1.2 = none) :
    (File.Write env dst p fs).2 dst = some ((fs dst).getD [] ++ p)
      ∧ (∀ q, q ≠ dst → (File.Write env dst p fs).2 q = fs q)
      ∧ (File.Write env dst p fs).1.1 = p.length := by
  unfold File.Write at h ⊢
  cases hl : env.diskLimit with
  | none =>
    simp only [hl, Nat.lt_irrefl, if_false, List.take_length, if_true, true_and, and_true]
    intro q hq
    simp [hq]
  | some limit =>
    simp only [hl] at h ⊢
    by_cases hroom : min p.length (limit - ((fs dst).getD []).length) < p.length
    · simp [hroom] at h
    · have hle : p.length ≤ limit - ((fs dst).getD []).length := by
        rcases Nat.lt_or_ge (limit - ((fs dst).getD []).length) p.length with h1 | h1
        · exact absurd (by rw [Nat.min_eq_right (Nat.le_of_lt h1)]; exact h1) hroom
        · exact h1
      have hmin : min p.length (limit - ((fs dst).getD []).length) = p.length :=
        Nat.min_eq_left hle
      simp only [hmin, Nat.lt_irrefl, if_false, List.take_length, if_true, true_and, and_true]
      intro q hq
      simp [hq]

/-- A copy that reports no error met no read error, appended every chunk of the
source to the destination file in order, and left every other path alone. -/
theorem Copy_ok (env : Env) (dst : String) (rerr : Option String) :
    ∀ (chunks : List Bytes) (fs : FileSystem) (old : Bytes), fs dst = some old →
      (io.Copy env dst chunks rerr fs).1.2 = none →
      (io.Copy env dst chunks rerr fs).2 dst = some (old ++ chunks.flatten)
        ∧ (∀ q, q ≠ dst → (io.Copy env dst chunks rerr fs).2 q = fs q)
        ∧ (io.Copy env dst chunks rerr fs).1.1 = chunks.flatten.length
        ∧ rerr = none := by
  intro chunks
  induction chunks with
  | nil =>
    intro fs old hold h
    simp [io.Copy] at h ⊢
    exact ⟨hold, h⟩
  | cons chunk rest ih =>
    intro fs old hold h
    by_cases hlen : chunk.length > 0
    · simp only [io.Copy, hlen, if_true] at h ⊢
      cases hw : (File.Write env dst chunk fs).1.2 with
      | some ew => simp [hw] at h
      | none =>
        simp only [hw] at h ⊢
        obtain ⟨hdst, hother, hn⟩ := Write_ok env dst chunk fs hw
        rw [hold] at hdst
        simp only [Option.getD_some] at hdst
        obtain ⟨h1, h2, h3, h4⟩ := ih (File.Write env dst chunk fs).2 (old ++ chunk) hdst h
        refine ⟨?_, ?_, ?_, h4⟩
        · simp [h1, List.append_assoc]
        · intro q hq
          rw [h2 q hq, hother q hq]
        · simp [h3, hn]
    · have hnil : chunk = [] := by
        cases chunk with
        | nil => rfl
        | cons a t => simp at hlen
      subst hnil
      simp only [io.Copy, List.length_nil, gt_iff_lt, Nat.lt_irrefl, if_false] at h ⊢
      simpa using ih fs old hold h

/-- C1: for every subcommand other than `list`, an empty `--name` or an empty
`--region` makes the pre-run hook return the error "bucket and region must be set
via flags"; `Execute` returns that error with the world untouched, so the handler
body is not run; the whole run consists of `main` printing the error, the exit
status is 1, and no provider API call is recorded. -/
theorem C1_missing_name_or_region_rejected (env : Env) (cmd : Subcommand) (flags : Flags)
    (fs : FileSystem) (hcmd : cmd ≠ Subcommand.list)
    (h : flags.name = "" ∨ flags.region = "") :
    (bucketCmd.PersistentPreRunE cmd flags (World.init fs)).2.1
        = some "bucket and region must be set via flags"
      ∧ rootCmd.Execute env cmd flags (World.init fs)
        = (some "bucket and region must be set via flags", World.init fs)
      ∧ (main env cmd flags fs).2.trace
        = [Event.stdout "bucket and region must be set via flags\n"]
      ∧ (main env cmd flags fs).1 = 1
      ∧ apiCalls (main env cmd flags fs).2.trace = [] := by
  cases cmd <;>
    simp_all [main, rootCmd.Execute, bucketCmd.PersistentPreRunE, Subcommand.Name, apiCalls,
      Println_one, World.emit, World.init]

/-- Witness of C1: `bucket delete --name mybucket` without a region. -/
theorem C1_missing_name_or_region_rejected_witness :
    (bucketCmd.PersistentPreRunE Subcommand.delete { name := "mybucket" } (World.init demoFs)).2.1
        = some "bucket and region must be set via flags"
      ∧ rootCmd.Execute demoEnv Subcommand.delete { name := "mybucket" } (World.init demoFs)
        = (some "bucket and region must be set via flags", World.init demoFs)
      ∧ (main demoEnv Subcommand.delete { name := "mybucket" } demoFs).2.trace
        = [Event.stdout "bucket and region must be set via flags\n"]
      ∧ (main demoEnv Subcommand.delete { name := "mybucket" } demoFs).1 = 1
      ∧ apiCalls (main demoEnv Subcommand.delete { name := "mybucket" } demoFs).2.trace = [] :=
  C1_missing_name_or_region_rejected demoEnv Subcommand.delete { name := "mybucket" } demoFs
    (by decide) (Or.inr rfl)

/-- C2: with a non-empty name and region and a configuration that loads,
`bucket create` records exactly one call, a CreateBucket whose `Bucket` is the
given name, whose configuration is absent when the region is "us-east-1", and
whose configuration carries the region as `LocationConstraint` otherwise. -/
theorem C2_create_location_constraint (env : Env) (flags : Flags) (fs : FileSystem)
    (cfg : Config) (hname : flags.name ≠ "") (hregion : flags.region ≠ "")
    (hcfg : env.LoadDefaultConfig (regionalOpts flags.profile flags.region) = .ok cfg) :
    ∃ input : CreateBucketInput,
      apiCalls (main env Subcommand.create flags fs).2.trace = [ApiCall.CreateBucket input]
        ∧ input.Bucket = flags.name
        ∧ (flags.region = "us-east-1" → input.CreateBucketConfiguration = none)
        ∧ (flags.region ≠ "us-east-1" →
            input.CreateBucketConfiguration = some { LocationConstraint := flags.region }) := by
  refine ⟨{ Bucket := flags.name,
            CreateBucketConfiguration :=
              if flags.region ≠ "us-east-1" then some { LocationConstraint := flags.region }
              else none }, ?_, rfl, ?_, ?_⟩
  · obtain ⟨name, region, profile, file, key, output, pfx⟩ := flags
    simp only at hname hregion hcfg
    rcases eq_or_ne profile "" with rfl | hp <;> rcases eq_or_ne region "us-east-1" with rfl | hr <;>
      simp [regionalOpts, *] at hcfg <;>
      simp [main, rootCmd.Execute, bucketCmd.PersistentPreRunE, Subcommand.Name, Subcommand.Run,
        createCmd.Run, config.LoadDefaultConfig, s3.NewFromConfig, Client.CreateBucket, apiCalls,
        Println_one, Println_two, Println_four, World.emit, World.init, *] <;>
      split <;> simp_all
  · intro hr; simp [hr]
  · intro hr; simp [hr]

/-- Witness of C2: `bucket create --name mybucket --region eu-west-1`. -/
theorem C2_create_location_constraint_witness :
    ∃ input : CreateBucketInput,
      apiCalls (main demoEnv Subcommand.create { name := "mybucket", region := "eu-west-1" }
          demoFs).2.trace = [ApiCall.CreateBucket input]
        ∧ input.Bucket = "mybucket"
        ∧ ("eu-west-1" = "us-east-1" → input.CreateBucketConfiguration = none)
        ∧ ("eu-west-1" ≠ "us-east-1" →
            input.CreateBucketConfiguration = some { LocationConstraint := "eu-west-1" }) :=
  C2_create_location_constraint demoEnv { name := "mybucket", region := "eu-west-1" } demoFs
    { opts := [CfgOpt.WithRegion "eu-west-1"] } (by decide) (by decide) rfl

/-- C3: when name and region are given, the configuration loads and
GetBucketLocation succeeds with location `loc`, the handler of `bucket info`
prints exactly the text "Bucket: NAME\nRegion: SHOWN\n", where SHOWN is
"us-east-1" if `loc` is empty and `loc` itself otherwise; in the whole run this
text follows the lines of the pre-run hook. -/
theorem C3_info_shows_region (env : Env) (flags : Flags) (fs : FileSystem) (cfg : Config)
    (loc : String) (hname : flags.name ≠ "") (hregion : flags.region ≠ "")
    (hcfg : env.LoadDefaultConfig (regionalOpts flags.profile flags.region) = .ok cfg)
    (hloc : env.GetBucketLocation cfg flags.name = .ok loc) :
    ∃ shown : String,
      (loc = "" → shown = "us-east-1") ∧ (loc ≠ "" → shown = loc)
        ∧ stdoutWrites
            (infoCmd.Run env
              { bucketName := flags.name, region := flags.region, profile := flags.profile }
              (World.init fs)).trace
          = ["Bucket: " ++ flags.name ++ "\nRegion: " ++ shown ++ "\n"]
        ∧ stdoutWrites (main env Subcommand.info flags fs).2.trace
          = preRunWrites flags ++ ["Bucket: " ++ flags.name ++ "\nRegion: " ++ shown ++ "\n"] := by
  obtain ⟨name, region, profile, file, key, output, pfx⟩ := flags
  simp only at hname hregion hcfg hloc
  refine ⟨if loc = "" then "us-east-1" else loc, by intro h; simp [h], by intro h; simp [h], ?_, ?_⟩
  all_goals
    rcases eq_or_ne profile "" with rfl | hp <;>
      simp [regionalOpts, *] at hcfg <;>
      simp [main, rootCmd.Execute, bucketCmd.PersistentPreRunE, Subcommand.Name, Subcommand.Run,
        infoCmd.Run, config.LoadDefaultConfig, s3.NewFromConfig, Client.GetBucketLocation,
        stdoutWrites, preRunWrites, Println_one, Println_two, Println_four, fmt.Printf,
        World.emit, World.init, *] <;>
      simp [String.ext_iff]

/-- Witness of C3: the provider reports the empty location for `mybucket`. -/
theorem C3_info_shows_region_witness :
    ∃ shown : String,
      ("" = "" → shown = "us-east-1") ∧ (("" : String) ≠ "" → shown = "")
        ∧ stdoutWrites
            (infoCmd.Run demoEnv
              { bucketName := "mybucket", region := "eu-west-1", profile := "" }
              (World.init demoFs)).trace
          = ["Bucket: " ++ "mybucket" ++ "\nRegion: " ++ shown ++ "\n"]
        ∧ stdoutWrites
            (main demoEnv Subcommand.info { name := "mybucket", region := "eu-west-1" }
              demoFs).2.trace
          = preRunWrites { name := "mybucket", region := "eu-west-1" }
              ++ ["Bucket: " ++ "mybucket" ++ "\nRegion: " ++ shown ++ "\n"] :=
  C3_info_shows_region demoEnv { name := "mybucket", region := "eu-west-1" } demoFs
    { opts := [CfgOpt.WithRegion "eu-west-1"] } "" (by decide) (by decide) rfl rfl

/-- C4: with a non-empty name and region, `upload` with an empty `--file` or
`--key`, `download` with an empty `--key` or `--output`, and `delete-object` with
an empty `--key` do nothing but print: the trace of the run is the lines of the
pre-run hook followed by the validation message of the command, so no
configuration is loaded, no client is built, no file is opened or created and no
provider API call is recorded; the file system is unchanged. -/
theorem C4_missing_object_flags_rejected (env : Env) (flags : Flags) (fs : FileSystem)
    (hname : flags.name ≠ "") (hregion : flags.region ≠ "") :
    ((flags.file = "" ∨ flags.key = "") →
        (main env Subcommand.upload flags fs).2.trace
            = (preRunWrites flags).map Event.stdout
              ++ [Event.stdout "You must provide both --file and --key\n"]
          ∧ apiCalls (main env Subcommand.upload flags fs).2.trace = []
          ∧ (main env Subcommand.upload flags fs).2.files = fs)
      ∧ ((flags.key = "" ∨ flags.output = "") →
        (main env Subcommand.download flags fs).2.trace
            = (preRunWrites flags).map Event.stdout
              ++ [Event.stdout "You must provide both --key and --output\n"]
          ∧ apiCalls (main env Subcommand.download flags fs).2.trace = []
          ∧ (main env Subcommand.download flags fs).2.files = fs)
      ∧ (flags.key = "" →
        (main env Subcommand.deleteObject flags fs).2.trace
            = (preRunWrites flags).map Event.stdout
              ++ [Event.stdout "You must provide --key to delete an object\n"]
          ∧ apiCalls (main env Subcommand.deleteObject flags fs).2.trace = []
          ∧ (main env Subcommand.deleteObject flags fs).2.files = fs) := by
  obtain ⟨name, region, profile, file, key, output, pfx⟩ := flags
  simp only at hname hregion
  refine ⟨fun h => ?_, fun h => ?_, fun h => ?_⟩ <;> simp only at h <;>
    rcases eq_or_ne profile "" with rfl | hp <;>
      simp [main, rootCmd.Execute, bucketCmd.PersistentPreRunE, Subcommand.Name, Subcommand.Run,
        uploadCmd.Run, downloadCmd.Run, deleteObjectCmd.Run, apiCalls, preRunWrites,
        Println_one, Println_two, Println_four, World.emit, World.init, *] <;>
      simp [String.ext_iff]

/-- Witness of C4: `upload` without `--key`, `download` without `--output` and
`delete-object` without `--key` on bucket `mybucket`. -/
theorem C4_missing_object_flags_rejected_witness :
    (main demoEnv Subcommand.upload { name := "mybucket", region := "eu-west-1", file := "in.bin" }
        demoFs).2.trace
      = [Event.stdout "Using bucket: mybucket in eu-west-1\n",
         Event.stdout "You must provide both --file and --key\n"]
    ∧ (main demoEnv Subcommand.download { name := "mybucket", region := "eu-west-1", file := "in.bin" }
        demoFs).2.trace
      = [Event.stdout "Using bucket: mybucket in eu-west-1\n",
         Event.stdout "You must provide both --key and --output\n"]
    ∧ (main demoEnv Subcommand.deleteObject
        { name := "mybucket", region := "eu-west-1", file := "in.bin" } demoFs).2.trace
      = [Event.stdout "Using bucket: mybucket in eu-west-1\n",
         Event.stdout "You must provide --key to delete an object\n"] :=
  have h := C4_missing_object_flags_rejected demoEnv
    { name := "mybucket", region := "eu-west-1", file := "in.bin" } demoFs (by decide) (by decide)
  ⟨(h.1 (Or.inr rfl)).1, (h.2.1 (Or.inl rfl)).1, (h.2.2 rfl).1⟩

/-- C5: when all four flags of `bucket download` are given, the configuration
loads, GetObject succeeds with a body, creating the output file succeeds and the
copy into the freshly created file reports no error, then after the run the file
at `--output` holds exactly the bytes of the body, in order, whatever the path
held before; every other path is unchanged; the last line printed is
"File downloaded successfully: OUTPUT"; and the exit status is 0. -/
theorem C5_download_writes_body (env : Env) (flags : Flags) (fs : FileSystem) (cfg : Config)
    (body : Body) (hname : flags.name ≠ "") (hregion : flags.region ≠ "")
    (hkey : flags.key ≠ "") (hout : flags.output ≠ "")
    (hcfg : env.LoadDefaultConfig (regionalOpts flags.profile flags.region) = .ok cfg)
    (hget : env.GetObject cfg flags.name flags.key = .ok body)
    (hcreate : env.createDenied flags.output = none)
    (hcopy : (io.Copy env flags.output body.chunks body.err
      (truncated fs flags.output)).1.2 = none) :
    (main env Subcommand.download flags fs).2.files flags.output = some body.bytes
      ∧ (∀ q, q ≠ flags.output → (main env Subcommand.download flags fs).2.files q = fs q)
      ∧ stdoutWrites (main env Subcommand.download flags fs).2.trace
        = preRunWrites flags ++ ["File downloaded successfully: " ++ flags.output ++ "\n"]
      ∧ (main env Subcommand.download flags fs).1 = 0 := by
  obtain ⟨name, region, profile, file, key, output, pfx⟩ := flags
  simp only at hname hregion hkey hout hcfg hget hcreate hcopy
  obtain ⟨h1, h2, -, -⟩ :=
    Copy_ok env output body.err body.chunks (truncated fs output) [] (by simp [truncated]) hcopy
  rcases eq_or_ne profile "" with rfl | hp <;>
    simp [regionalOpts, *] at hcfg <;>
    simp [main, rootCmd.Execute, bucketCmd.PersistentPreRunE, Subcommand.Name, Subcommand.Run,
      downloadCmd.Run, config.LoadDefaultConfig, s3.NewFromConfig, Client.GetObject, os.Create,
      Close, stdoutWrites, preRunWrites, Println_one, Println_two, Println_four, World.emit,
      World.init, Body.bytes, *] <;>
    refine ⟨?_, ?_⟩ <;>
    first
      | (intro q hq
         rw [h2 q hq]
         simp [truncated, hq])
      | simp [String.ext_iff]

/-- Witness of C5: a three-byte object is downloaded over the existing file
`in.bin`, whose two old bytes are discarded. -/
theorem C5_download_writes_body_witness :
    (main demoEnv Subcommand.download
        { name := "mybucket", region := "eu-west-1", key := "k", output := "in.bin" }
        demoFs).2.files "in.bin" = some [1, 2, 3]
      ∧ demoFs "in.bin" = some [7, 8]
      ∧ stdoutWrites (main demoEnv Subcommand.download
          { name := "mybucket", region := "eu-west-1", key := "k", output := "in.bin" }
          demoFs).2.trace
        = ["Using bucket: mybucket in eu-west-1\n", "File downloaded successfully: in.bin\n"] :=
  have h := C5_download_writes_body demoEnv
    { name := "mybucket", region := "eu-west-1", key := "k", output := "in.bin" } demoFs
    { opts := [CfgOpt.WithRegion "eu-west-1"] } { chunks := [[1, 2], [3]] }
    (by decide) (by decide) (by decide) (by decide) rfl rfl rfl rfl
  ⟨h.1, by decide, h.2.2.1⟩

/-! ### Failing runs of `upload` and `download`, step by step -/

/-- A run of `upload` in which PutObject fails: the file is opened, the call
fails, the error is printed and the file is closed. -/
theorem upload_put_failure_trace :
    (main { demoEnv with PutObject := fun _ _ _ _ => .error "AccessDenied" } Subcommand.upload
        { name := "mybucket", region := "eu-west-1", file := "in.bin", key := "k" }
        demoFs).2.trace
      = [Event.stdout "Using bucket: mybucket in eu-west-1\n",
         Event.loadConfig [CfgOpt.WithRegion "eu-west-1"],
         Event.newClient { opts := [CfgOpt.WithRegion "eu-west-1"] },
         Event.acquired (Handle.localFile "in.bin"),
         Event.api (ApiCall.PutObject "mybucket" "k" { path := "in.bin", contents := [7, 8] }),
         Event.stdout "Error uploading file: AccessDenied\n",
         Event.released (Handle.localFile "in.bin")] := by
  decide

/-- A run of `download` in which the output file cannot be created: the response
body is still closed. -/
theorem download_create_failure_trace :
    (main { demoEnv with createDenied := fun _ => some "permission denied" } Subcommand.download
        { name := "mybucket", region := "eu-west-1", key := "k", output := "out.bin" }
        demoFs).2.trace
      = [Event.stdout "Using bucket: mybucket in eu-west-1\n",
         Event.loadConfig [CfgOpt.WithRegion "eu-west-1"],
         Event.newClient { opts := [CfgOpt.WithRegion "eu-west-1"] },
         Event.api (ApiCall.GetObject "mybucket" "k"),
         Event.acquired (Handle.responseBody "mybucket" "k"),
         Event.stdout "Error creating output file: permission denied\n",
         Event.released (Handle.responseBody "mybucket" "k")] := by
  decide

/-- A run of `download` in which the copy fails after the first chunk, the disk
being full: the two bytes that fitted stay in the file, and both the output file
and the response body are closed. -/
theorem download_copy_failure_trace :
    (main { demoEnv with diskLimit := some 2 } Subcommand.download
        { name := "mybucket", region := "eu-west-1", key := "k", output := "out.bin" }
        demoFs).2.trace
      = [Event.stdout "Using bucket: mybucket in eu-west-1\n",
         Event.loadConfig [CfgOpt.WithRegion "eu-west-1"],
         Event.newClient { opts := [CfgOpt.WithRegion "eu-west-1"] },
         Event.api (ApiCall.GetObject "mybucket" "k"),
         Event.acquired (Handle.responseBody "mybucket" "k"),
         Event.acquired (Handle.localFile "out.bin"),
         Event.stdout "Error saving file: write out.bin: no space left on device\n",
         Event.released (Handle.localFile "out.bin"),
         Event.released (Handle.responseBody "mybucket" "k")]
      ∧ (main { demoEnv with diskLimit := some 2 } Subcommand.download
        { name := "mybucket", region := "eu-west-1", key := "k", output := "out.bin" }
        demoFs).2.files "out.bin" = some [1, 2] := by
  decide

/-- C6: in every run of `upload` and of `download`, whatever the environment
answers, no handle is still held when the run ends: the local file opened by
`upload`, the response body handed over by GetObject and the output file created
by `download` are each released after they were acquired. -/
theorem C6_handles_released (env : Env) (flags : Flags) (fs : FileSystem) :
    heldAfter [] (main env Subcommand.upload flags fs).2.trace = []
      ∧ heldAfter [] (main env Subcommand.download flags fs).2.trace = [] := by
  obtain ⟨name, region, profile, file, key, output, pfx⟩ := flags
  have hp := Classical.em (profile = "")
  constructor
  · by_cases hnr : name = "" ∨ region = ""
    · simp [main, rootCmd.Execute, bucketCmd.PersistentPreRunE, Subcommand.Name, Println_one,
        World.emit, World.init, heldAfter, hnr]
    by_cases hfk : file = "" ∨ key = ""
    · rcases hp with hp | hp <;>
        simp [main, rootCmd.Execute, bucketCmd.PersistentPreRunE, Subcommand.Name, Subcommand.Run,
          uploadCmd.Run, Println_one, Println_two, Println_four, World.emit, World.init,
          heldAfter, hnr, hfk, hp]
    rcases hcfg : env.LoadDefaultConfig (regionalOpts profile region) with e | cfg
    · rcases hp with hp | hp <;> simp [regionalOpts, hp] at hcfg <;>
        simp [main, rootCmd.Execute, bucketCmd.PersistentPreRunE, Subcommand.Name,
        Subcommand.Run, uploadCmd.Run, config.LoadDefaultConfig, s3.NewFromConfig,
        Client.PutObject, os.Open, Close, Println_one, Println_two, Println_four,
        World.emit, World.init, heldAfter, *]
    rcases hden : env.openDenied file with _ | e
    swap
    · rcases hp with hp | hp <;> simp [regionalOpts, hp] at hcfg <;>
        simp [main, rootCmd.Execute, bucketCmd.PersistentPreRunE, Subcommand.Name,
        Subcommand.Run, uploadCmd.Run, config.LoadDefaultConfig, s3.NewFromConfig,
        Client.PutObject, os.Open, Close, Println_one, Println_two, Println_four,
        World.emit, World.init, heldAfter, *]
    rcases hfile : fs file with _ | contents
    · rcases hp with hp | hp <;> simp [regionalOpts, hp] at hcfg <;>
        simp [main, rootCmd.Execute, bucketCmd.PersistentPreRunE, Subcommand.Name,
        Subcommand.Run, uploadCmd.Run, config.LoadDefaultConfig, s3.NewFromConfig,
        Client.PutObject, os.Open, Close, Println_one, Println_two, Println_four,
        World.emit, World.init, heldAfter, *]
    rcases hput : env.PutObject cfg name key { path := file, contents := contents } with e | u
    all_goals
      rcases hp with hp | hp <;> simp [regionalOpts, hp] at hcfg <;>
        simp [main, rootCmd.Execute, bucketCmd.PersistentPreRunE, Subcommand.Name,
        Subcommand.Run, uploadCmd.Run, config.LoadDefaultConfig, s3.NewFromConfig,
        Client.PutObject, os.Open, Close, Println_one, Println_two, Println_four,
        World.emit, World.init, heldAfter, *]
  · by_cases hnr : name = "" ∨ region = ""
    · simp [main, rootCmd.Execute, bucketCmd.PersistentPreRunE, Subcommand.Name, Println_one,
        World.emit, World.init, heldAfter, hnr]
    by_cases hko : key = "" ∨ output = ""
    · rcases hp with hp | hp <;>
        simp [main, rootCmd.Execute, bucketCmd.PersistentPreRunE, Subcommand.Name, Subcommand.Run,
          downloadCmd.Run, Println_one, Println_two, Println_four, World.emit, World.init,
          heldAfter, hnr, hko, hp]
    rcases hcfg : env.LoadDefaultConfig (regionalOpts profile region) with e | cfg
    · rcases hp with hp | hp <;> simp [regionalOpts, hp] at hcfg <;>
        simp [main, rootCmd.Execute, bucketCmd.PersistentPreRunE, Subcommand.Name,
        Subcommand.Run, downloadCmd.Run, config.LoadDefaultConfig, s3.NewFromConfig,
        Client.GetObject, os.Create, Close, Println_one, Println_two, Println_four,
        World.emit, World.init, heldAfter, *]
    rcases hget : env.GetObject cfg name key with e | body
    · rcases hp with hp | hp <;> simp [regionalOpts, hp] at hcfg <;>
        simp [main, rootCmd.Execute, bucketCmd.PersistentPreRunE, Subcommand.Name,
        Subcommand.Run, downloadCmd.Run, config.LoadDefaultConfig, s3.NewFromConfig,
        Client.GetObject, os.Create, Close, Println_one, Println_two, Println_four,
        World.emit, World.init, heldAfter, *]
    rcases hden : env.createDenied output with _ | e
    swap
    · rcases hp with hp | hp <;> simp [regionalOpts, hp] at hcfg <;>
        simp [main, rootCmd.Execute, bucketCmd.PersistentPreRunE, Subcommand.Name,
        Subcommand.Run, downloadCmd.Run, config.LoadDefaultConfig, s3.NewFromConfig,
        Client.GetObject, os.Create, Close, Println_one, Println_two, Println_four,
        World.emit, World.init, heldAfter, *]
    rcases hcp : (io.Copy env output body.chunks body.err (truncated fs output)).1.2 with _ | e
    all_goals
      rcases hp with hp | hp <;> simp [regionalOpts, hp] at hcfg <;>
        simp [main, rootCmd.Execute, bucketCmd.PersistentPreRunE, Subcommand.Name,
        Subcommand.Run, downloadCmd.Run, config.LoadDefaultConfig, s3.NewFromConfig,
        Client.GetObject, os.Create, Close, Println_one, Println_two, Println_four,
        World.emit, World.init, heldAfter, *]

/-- What `bucket list-objects` prints, whichever declaration the `Size` field has:
when name and region are given, the configuration loads and ListObjectsV2
succeeds with `contents`, the handler prints, for an empty `contents`, the single
line "No objects found in bucket" and nothing else, and for a non-empty
`contents` the line "Objects:" followed, per object and in the returned order, by
one line " - KEY (size: D)", where D is what `%d` prints for the `Size` field; in
the whole run these lines follow the lines of the pre-run hook. -/
theorem listObjects_output (env : Env) (flags : Flags) (fs : FileSystem) (cfg : Config)
    (contents : List Object) (hname : flags.name ≠ "") (hregion : flags.region ≠ "")
    (hcfg : env.LoadDefaultConfig (regionalOpts flags.profile flags.region) = .ok cfg)
    (hlist : env.ListObjectsV2 cfg flags.name flags.Prefix = .ok contents) :
    (contents = [] →
        stdoutWrites (listObjectsCmd.Run env
            { bucketName := flags.name, region := flags.region, profile := flags.profile }
            flags (World.init fs)).trace = ["No objects found in bucket\n"]
          ∧ stdoutWrites (main env Subcommand.listObjects flags fs).2.trace
            = preRunWrites flags ++ ["No objects found in bucket\n"])
      ∧ (contents ≠ [] →
        stdoutWrites (listObjectsCmd.Run env
            { bucketName := flags.name, region := flags.region, profile := flags.profile }
            flags (World.init fs)).trace
            = "Objects:\n" :: contents.map
                (fun o => " - " ++ o.Key ++ " (size: " ++ o.Size.fmtD ++ ")\n")
          ∧ stdoutWrites (main env Subcommand.listObjects flags fs).2.trace
            = preRunWrites flags ++ "Objects:\n" :: contents.map
                (fun o => " - " ++ o.Key ++ " (size: " ++ o.Size.fmtD ++ ")\n")) := by
  obtain ⟨name, region, profile, file, key, output, pfx⟩ := flags
  simp only at hname hregion hcfg hlist
  have hp := Classical.em (profile = "")
  refine ⟨fun h => ?_, fun h => ?_⟩
  · subst h
    constructor <;> rcases hp with hp | hp <;> simp [regionalOpts, hp] at hcfg <;>
      simp [main, rootCmd.Execute, bucketCmd.PersistentPreRunE, Subcommand.Name, Subcommand.Run,
        listObjectsCmd.Run, config.LoadDefaultConfig, s3.NewFromConfig, Client.ListObjectsV2,
        stdoutWrites, preRunWrites, Println_one, Println_two, Println_four, World.emit,
        World.init, *] <;>
      simp [String.ext_iff]
  · constructor <;> rcases hp with hp | hp <;> simp [regionalOpts, hp] at hcfg <;>
      simp [main, rootCmd.Execute, bucketCmd.PersistentPreRunE, Subcommand.Name, Subcommand.Run,
        listObjectsCmd.Run, config.LoadDefaultConfig, s3.NewFromConfig, Client.ListObjectsV2,
        printObjects_eq, preRunWrites, Println_one, Println_two, Println_four, World.emit,
        World.init, *] <;>
      simp [stdoutWrites_cons, stdoutWrites_map_stdout, objectLine, String.ext_iff]

/-- When the `Size` field is an `int64` value, the line of an object shows its
size in decimal. -/
theorem objectLine_value (key : String) (n : Int) :
    objectLine { Key := key, Size := .value n }
      = " - " ++ key ++ " (size: " ++ toString n ++ ")\n" := rfl

/-- The runs of `bucket list-objects` on an empty bucket and on a bucket whose two
objects are listed with `int64` sizes. -/
theorem listObjects_output_value_runs :
    stdoutWrites (main emptyBucketEnv Subcommand.listObjects
        { name := "mybucket", region := "eu-west-1" } demoFs).2.trace
      = ["Using bucket: mybucket in eu-west-1\n", "No objects found in bucket\n"]
    ∧ stdoutWrites (main demoEnv Subcommand.listObjects
        { name := "mybucket", region := "eu-west-1" } demoFs).2.trace
      = ["Using bucket: mybucket in eu-west-1\n", "Objects:\n", " - a.txt (size: 3)\n",
         " - b (size: 0)\n"] :=
  ⟨((listObjects_output emptyBucketEnv { name := "mybucket", region := "eu-west-1" } demoFs
      { opts := [CfgOpt.WithRegion "eu-west-1"] } [] (by decide) (by decide) rfl rfl).1 rfl).2,
   ((listObjects_output demoEnv { name := "mybucket", region := "eu-west-1" } demoFs
      { opts := [CfgOpt.WithRegion "eu-west-1"] }
      [{ Key := "a.txt", Size := .value 3 }, { Key := "b", Size := .value 0 }]
      (by decide) (by decide) rfl rfl).2 (by decide)).2⟩

/-- C7 (defect in the code): `bucket list-objects` on a bucket holding the
three-byte object `a.txt`, listed with a pointer-typed `Size` field.  The claim
asks for the line " - a.txt (size: 3)".  The handler dereferences the key but not
the size, so the run prints the header "Objects:" and then the line
" - a.txt (size: 824634228896)", which shows the address of the field, not the
size of the object. -/
theorem C7_pointer_size_prints_address :
    ([{ Key := "a.txt", Size := SizeField.pointer 824634228896 3 }] : List Object).map
        (fun o => o.Size.size) = [3]
      ∧ stdoutWrites (main pointerSizeEnv Subcommand.listObjects
          { name := "mybucket", region := "eu-west-1" } demoFs).2.trace
        = ["Using bucket: mybucket in eu-west-1\n", "Objects:\n",
           " - a.txt (size: 824634228896)\n"]
      ∧ stdoutWrites (main pointerSizeEnv Subcommand.listObjects
          { name := "mybucket", region := "eu-west-1" } demoFs).2.trace
        ≠ ["Using bucket: mybucket in eu-west-1\n", "Objects:\n", " - a.txt (size: 3)\n"] := by
  decide

/-- C8: `bucket list` needs neither bucket nor region.  For every flag assignment
the pre-run hook returns no error and prints nothing; the run starts by loading
the configuration with the profile option alone when a profile is given and with
no option otherwise; no configuration load of the run carries a region option;
and whenever that configuration loads, the one provider call ListBuckets is
issued, also with an empty name and region. -/
theorem C8_list_needs_no_bucket (env : Env) (flags : Flags) (fs : FileSystem) :
    (bucketCmd.PersistentPreRunE Subcommand.list flags (World.init fs)).2.1 = none
      ∧ (bucketCmd.PersistentPreRunE Subcommand.list flags (World.init fs)).2.2.trace = []
      ∧ (main env Subcommand.list flags fs).2.trace.head?
        = some (Event.loadConfig
            (if flags.profile ≠ "" then [CfgOpt.WithSharedConfigProfile flags.profile] else []))
      ∧ (∀ opts r, Event.loadConfig opts ∈ (main env Subcommand.list flags fs).2.trace →
          CfgOpt.WithRegion r ∉ opts)
      ∧ (∀ cfg,
          env.LoadDefaultConfig
              (if flags.profile ≠ "" then [CfgOpt.WithSharedConfigProfile flags.profile] else [])
            = .ok cfg →
          apiCalls (main env Subcommand.list flags fs).2.trace = [ApiCall.ListBuckets])
      ∧ (main env Subcommand.list flags fs).1 = 0 := by
  obtain ⟨name, region, profile, file, key, output, pfx⟩ := flags
  have hp := Classical.em (profile = "")
  refine ⟨by simp [bucketCmd.PersistentPreRunE, Subcommand.Name],
    by simp [bucketCmd.PersistentPreRunE, Subcommand.Name, World.init], ?_⟩
  rcases hcfg : env.LoadDefaultConfig
      (if profile ≠ "" then [CfgOpt.WithSharedConfigProfile profile] else []) with e | cfg
  · rcases hp with hp | hp <;> simp [hp] at hcfg <;>
      simp [main, rootCmd.Execute, bucketCmd.PersistentPreRunE, Subcommand.Name, Subcommand.Run,
        listCmd.Run, config.LoadDefaultConfig, Println_one, Println_two, World.emit,
        World.init, *] <;>
      intro opts r h <;> subst h <;> simp
  rcases hlb : env.ListBuckets cfg with e | buckets
  all_goals
    rcases hp with hp | hp <;> simp [hp] at hcfg <;>
      simp [main, rootCmd.Execute, bucketCmd.PersistentPreRunE, Subcommand.Name, Subcommand.Run,
        listCmd.Run, config.LoadDefaultConfig, s3.NewFromConfig, Client.ListBuckets,
        printBuckets_eq, apiCalls_cons, apiCalls_map_stdout, Println_one, Println_two,
        World.emit, World.init, *] <;>
      (try simp [apiCalls]) <;>
      intro opts r h <;> subst h <;> simp

/-- Witness of C8: `bucket list` with no flag at all. -/
theorem C8_list_needs_no_bucket_witness :
    (bucketCmd.PersistentPreRunE Subcommand.list {} (World.init demoFs)).2.1 = none
      ∧ (main demoEnv Subcommand.list {} demoFs).2.trace.head? = some (Event.loadConfig [])
      ∧ apiCalls (main demoEnv Subcommand.list {} demoFs).2.trace = [ApiCall.ListBuckets] :=
  have h := C8_list_needs_no_bucket demoEnv {} demoFs
  ⟨h.1, h.2.2.1, h.2.2.2.2.1 { opts := [] } rfl⟩

/-- Counterexample to C9 as stated: `bucket upload` with all flags given and a
configuration that loads builds its client, then fails to open the local file
`missing.bin` and returns without any provider API call. -/
theorem C9_counterexample_upload_unopened_file :
    Event.newClient { opts := [CfgOpt.WithRegion "eu-west-1"] }
        ∈ (main demoEnv Subcommand.upload
            { name := "mybucket", region := "eu-west-1", file := "missing.bin", key := "k" }
            demoFs).2.trace
      ∧ apiCalls (main demoEnv Subcommand.upload
            { name := "mybucket", region := "eu-west-1", file := "missing.bin", key := "k" }
            demoFs).2.trace = []
      ∧ (apiCalls (main demoEnv Subcommand.upload
            { name := "mybucket", region := "eu-west-1", file := "missing.bin", key := "k" }
            demoFs).2.trace).length ≠ 1 := by
  decide

/-- At most one call per run, and exactly the call of the subcommand once the
client is built and, for `upload`, the local file opened. -/
theorem one_call_of_client_built (env : Env) (cmd : Subcommand) (flags : Flags)
    (fs : FileSystem) :
    (apiCalls (main env cmd flags fs).2.trace).length ≤ 1
      ∧ ∀ cfg, Event.newClient cfg ∈ (main env cmd flags fs).2.trace →
          (cmd = Subcommand.upload →
            Event.acquired (Handle.localFile flags.file) ∈ (main env cmd flags fs).2.trace) →
          (apiCalls (main env cmd flags fs).2.trace).map ApiCall.kind = [cmd.api] := by
  obtain ⟨name, region, profile, file, key, output, pfx⟩ := flags
  have hp := Classical.em (profile = "")
  cases cmd
  · by_cases hnr : name = "" ∨ region = ""
    · simp [main, rootCmd.Execute, bucketCmd.PersistentPreRunE, Subcommand.Name, Println_one,
        World.emit, World.init, apiCalls, hnr]
    obtain ⟨hname, hregion⟩ := not_or.mp hnr
    rcases hcfg : env.LoadDefaultConfig (regionalOpts profile region) with e | cfg
    · rcases hp with hp | hp <;> simp [regionalOpts, hp] at hcfg <;>
      simp [main, rootCmd.Execute, bucketCmd.PersistentPreRunE, Subcommand.Name, Subcommand.Run,
        createCmd.Run, Client.CreateBucket,
        config.LoadDefaultConfig, s3.NewFromConfig, apiCalls_cons, apiCalls_map_stdout, ApiCall.kind, Subcommand.api, Println_one, Println_two,
        Println_four, World.emit, World.init, *] <;>
      simp [apiCalls]
    rcases hres : env.CreateBucket cfg
        { Bucket := name,
          CreateBucketConfiguration :=
            if region ≠ "us-east-1" then some { LocationConstraint := region } else none }
      with e | r
    all_goals
      rcases hp with hp | hp <;> simp [regionalOpts, hp] at hcfg <;>
        rcases eq_or_ne region "us-east-1" with rfl | hr <;> simp [*] at hres <;>
        simp [main, rootCmd.Execute, bucketCmd.PersistentPreRunE, Subcommand.Name, Subcommand.Run,
        createCmd.Run, Client.CreateBucket,
        config.LoadDefaultConfig, s3.NewFromConfig, apiCalls_cons, apiCalls_map_stdout, ApiCall.kind, Subcommand.api, Println_one, Println_two,
        Println_four, World.emit, World.init, *] <;>
        simp [apiCalls]
  · by_cases hnr : name = "" ∨ region = ""
    · simp [main, rootCmd.Execute, bucketCmd.PersistentPreRunE, Subcommand.Name, Println_one,
        World.emit, World.init, apiCalls, hnr]
    obtain ⟨hname, hregion⟩ := not_or.mp hnr
    rcases hcfg : env.LoadDefaultConfig (regionalOpts profile region) with e | cfg
    · rcases hp with hp | hp <;> simp [regionalOpts, hp] at hcfg <;>
      simp [main, rootCmd.Execute, bucketCmd.PersistentPreRunE, Subcommand.Name, Subcommand.Run,
        deleteCmd.Run, Client.DeleteBucket,
        config.LoadDefaultConfig, s3.NewFromConfig, apiCalls_cons, apiCalls_map_stdout, ApiCall.kind, Subcommand.api, Println_one, Println_two,
        Println_four, World.emit, World.init, *] <;>
      simp [apiCalls]
    rcases hres : env.DeleteBucket cfg name with e | r
    all_goals
      rcases hp with hp | hp <;> simp [regionalOpts, hp] at hcfg <;>
        simp [main, rootCmd.Execute, bucketCmd.PersistentPreRunE, Subcommand.Name, Subcommand.Run,
        deleteCmd.Run, Client.DeleteBucket,
        config.LoadDefaultConfig, s3.NewFromConfig, apiCalls_cons, apiCalls_map_stdout, ApiCall.kind, Subcommand.api, Println_one, Println_two,
        Println_four, World.emit, World.init, *] <;>
        simp [apiCalls]
  · rcases hcfg : env.LoadDefaultConfig
        (if profile ≠ "" then [CfgOpt.WithSharedConfigProfile profile] else []) with e | cfg
    · rcases hp with hp | hp <;> simp [hp] at hcfg <;>
      simp [main, rootCmd.Execute, bucketCmd.PersistentPreRunE, Subcommand.Name, Subcommand.Run,
        listCmd.Run, Client.ListBuckets, printBuckets_eq,
        config.LoadDefaultConfig, s3.NewFromConfig, apiCalls_cons, apiCalls_map_stdout, ApiCall.kind, Subcommand.api, Println_one, Println_two,
        Println_four, World.emit, World.init, *] <;>
      simp [apiCalls]
    rcases hres : env.ListBuckets cfg with e | r
    all_goals
      rcases hp with hp | hp <;> simp [hp] at hcfg <;>
        simp [main, rootCmd.Execute, bucketCmd.PersistentPreRunE, Subcommand.Name, Subcommand.Run,
        listCmd.Run, Client.ListBuckets, printBuckets_eq,
        config.LoadDefaultConfig, s3.NewFromConfig, apiCalls_cons, apiCalls_map_stdout, ApiCall.kind, Subcommand.api, Println_one, Println_two,
        Println_four, World.emit, World.init, *] <;>
        simp [apiCalls]
  · by_cases hnr : name = "" ∨ region = ""
    · simp [main, rootCmd.Execute, bucketCmd.PersistentPreRunE, Subcommand.Name, Println_one,
        World.emit, World.init, apiCalls, hnr]
    obtain ⟨hname, hregion⟩ := not_or.mp hnr
    rcases hcfg : env.LoadDefaultConfig (regionalOpts profile region) with e | cfg
    · rcases hp with hp | hp <;> simp [regionalOpts, hp] at hcfg <;>
      simp [main, rootCmd.Execute, bucketCmd.PersistentPreRunE, Subcommand.Name, Subcommand.Run,
        infoCmd.Run, Client.GetBucketLocation, fmt.Printf,
        config.LoadDefaultConfig, s3.NewFromConfig, apiCalls_cons, apiCalls_map_stdout, ApiCall.kind, Subcommand.api, Println_one, Println_two,
        Println_four, World.emit, World.init, *] <;>
      simp [apiCalls]
    rcases hres : env.GetBucketLocation cfg name with e | r
    all_goals
      rcases hp with hp | hp <;> simp [regionalOpts, hp] at hcfg <;>
        simp [main, rootCmd.Execute, bucketCmd.PersistentPreRunE, Subcommand.Name, Subcommand.Run,
        infoCmd.Run, Client.GetBucketLocation, fmt.Printf,
        config.LoadDefaultConfig, s3.NewFromConfig, apiCalls_cons, apiCalls_map_stdout, ApiCall.kind, Subcommand.api, Println_one, Println_two,
        Println_four, World.emit, World.init, *] <;>
        simp [apiCalls]
  · by_cases hnr : name = "" ∨ region = ""
    · simp [main, rootCmd.Execute, bucketCmd.PersistentPreRunE, Subcommand.Name, Println_one,
        World.emit, World.init, apiCalls, hnr]
    obtain ⟨hname, hregion⟩ := not_or.mp hnr
    by_cases hk : file = "" ∨ key = ""
    · rcases hp with hp | hp <;>
        simp [main, rootCmd.Execute, bucketCmd.PersistentPreRunE, Subcommand.Name, Subcommand.Run,
          uploadCmd.Run, Println_one, Println_two, Println_four, World.emit, World.init, apiCalls,
          hnr, hk, hp]
    obtain ⟨hk1, hk2⟩ := not_or.mp hk
    rcases hcfg : env.LoadDefaultConfig (regionalOpts profile region) with e | cfg
    · rcases hp with hp | hp <;> simp [regionalOpts, hp] at hcfg <;>
      simp [main, rootCmd.Execute, bucketCmd.PersistentPreRunE, Subcommand.Name, Subcommand.Run,
        uploadCmd.Run, Client.PutObject, os.Open, Close,
        config.LoadDefaultConfig, s3.NewFromConfig, apiCalls_cons, apiCalls_map_stdout, ApiCall.kind, Subcommand.api, Println_one, Println_two,
        Println_four, World.emit, World.init, *] <;>
      simp [apiCalls]
    rcases hden : env.openDenied file with _ | e
    swap
    · rcases hp with hp | hp <;> simp [regionalOpts, hp] at hcfg <;>
      simp [main, rootCmd.Execute, bucketCmd.PersistentPreRunE, Subcommand.Name, Subcommand.Run,
        uploadCmd.Run, Client.PutObject, os.Open, Close,
        config.LoadDefaultConfig, s3.NewFromConfig, apiCalls_cons, apiCalls_map_stdout, ApiCall.kind, Subcommand.api, Println_one, Println_two,
        Println_four, World.emit, World.init, *] <;>
      simp [apiCalls]
    rcases hfile : fs file with _ | contents
    · rcases hp with hp | hp <;> simp [regionalOpts, hp] at hcfg <;>
      simp [main, rootCmd.Execute, bucketCmd.PersistentPreRunE, Subcommand.Name, Subcommand.Run,
        uploadCmd.Run, Client.PutObject, os.Open, Close,
        config.LoadDefaultConfig, s3.NewFromConfig, apiCalls_cons, apiCalls_map_stdout, ApiCall.kind, Subcommand.api, Println_one, Println_two,
        Println_four, World.emit, World.init, *] <;>
      simp [apiCalls]
    rcases hres : env.PutObject cfg name key { path := file, contents := contents } with e | r
    all_goals
      rcases hp with hp | hp <;> simp [regionalOpts, hp] at hcfg <;>
        simp [main, rootCmd.Execute, bucketCmd.PersistentPreRunE, Subcommand.Name, Subcommand.Run,
        uploadCmd.Run, Client.PutObject, os.Open, Close,
        config.LoadDefaultConfig, s3.NewFromConfig, apiCalls_cons, apiCalls_map_stdout, ApiCall.kind, Subcommand.api, Println_one, Println_two,
        Println_four, World.emit, World.init, *] <;>
        simp [apiCalls]
  · by_cases hnr : name = "" ∨ region = ""
    · simp [main, rootCmd.Execute, bucketCmd.PersistentPreRunE, Subcommand.Name, Println_one,
        World.emit, World.init, apiCalls, hnr]
    obtain ⟨hname, hregion⟩ := not_or.mp hnr
    by_cases hk : key = "" ∨ output = ""
    · rcases hp with hp | hp <;>
        simp [main, rootCmd.Execute, bucketCmd.PersistentPreRunE, Subcommand.Name, Subcommand.Run,
          downloadCmd.Run, Println_one, Println_two, Println_four, World.emit, World.init, apiCalls,
          hnr, hk, hp]
    obtain ⟨hk1, hk2⟩ := not_or.mp hk
    rcases hcfg : env.LoadDefaultConfig (regionalOpts profile region) with e | cfg
    · rcases hp with hp | hp <;> simp [regionalOpts, hp] at hcfg <;>
      simp [main, rootCmd.Execute, bucketCmd.PersistentPreRunE, Subcommand.Name, Subcommand.Run,
        downloadCmd.Run, Client.GetObject, os.Create, Close,
        config.LoadDefaultConfig, s3.NewFromConfig, apiCalls_cons, apiCalls_map_stdout, ApiCall.kind, Subcommand.api, Println_one, Println_two,
        Println_four, World.emit, World.init, *] <;>
      simp [apiCalls]
    rcases hget : env.GetObject cfg name key with e | body
    · rcases hp with hp | hp <;> simp [regionalOpts, hp] at hcfg <;>
      simp [main, rootCmd.Execute, bucketCmd.PersistentPreRunE, Subcommand.Name, Subcommand.Run,
        downloadCmd.Run, Client.GetObject, os.Create, Close,
        config.LoadDefaultConfig, s3.NewFromConfig, apiCalls_cons, apiCalls_map_stdout, ApiCall.kind, Subcommand.api, Println_one, Println_two,
        Println_four, World.emit, World.init, *] <;>
      simp [apiCalls]
    rcases hden : env.createDenied output with _ | e
    swap
    · rcases hp with hp | hp <;> simp [regionalOpts, hp] at hcfg <;>
      simp [main, rootCmd.Execute, bucketCmd.PersistentPreRunE, Subcommand.Name, Subcommand.Run,
        downloadCmd.Run, Client.GetObject, os.Create, Close,
        config.LoadDefaultConfig, s3.NewFromConfig, apiCalls_cons, apiCalls_map_stdout, ApiCall.kind, Subcommand.api, Println_one, Println_two,
        Println_four, World.emit, World.init, *] <;>
      simp [apiCalls]
    rcases hcp : (io.Copy env output body.chunks body.err (truncated fs output)).1.2 with _ | e
    all_goals
      rcases hp with hp | hp <;> simp [regionalOpts, hp] at hcfg <;>
        simp [main, rootCmd.Execute, bucketCmd.PersistentPreRunE, Subcommand.Name, Subcommand.Run,
        downloadCmd.Run, Client.GetObject, os.Create, Close,
        config.LoadDefaultConfig, s3.NewFromConfig, apiCalls_cons, apiCalls_map_stdout, ApiCall.kind, Subcommand.api, Println_one, Println_two,
        Println_four, World.emit, World.init, *] <;>
        simp [apiCalls]
  · by_cases hnr : name = "" ∨ region = ""
    · simp [main, rootCmd.Execute, bucketCmd.PersistentPreRunE, Subcommand.Name, Println_one,
        World.emit, World.init, apiCalls, hnr]
    obtain ⟨hname, hregion⟩ := not_or.mp hnr
    rcases hcfg : env.LoadDefaultConfig (regionalOpts profile region) with e | cfg
    · rcases hp with hp | hp <;> simp [regionalOpts, hp] at hcfg <;>
      simp [main, rootCmd.Execute, bucketCmd.PersistentPreRunE, Subcommand.Name, Subcommand.Run,
        listObjectsCmd.Run, Client.ListObjectsV2, printObjects_eq,
        config.LoadDefaultConfig, s3.NewFromConfig, apiCalls_cons, apiCalls_map_stdout, ApiCall.kind, Subcommand.api, Println_one, Println_two,
        Println_four, World.emit, World.init, *] <;>
      simp [apiCalls]
    rcases hres : env.ListObjectsV2 cfg name pfx with e | r
    all_goals
      rcases hp with hp | hp <;> simp [regionalOpts, hp] at hcfg <;>
        simp [main, rootCmd.Execute, bucketCmd.PersistentPreRunE, Subcommand.Name, Subcommand.Run,
        listObjectsCmd.Run, Client.ListObjectsV2, printObjects_eq,
        config.LoadDefaultConfig, s3.NewFromConfig, apiCalls_cons, apiCalls_map_stdout, ApiCall.kind, Subcommand.api, Println_one, Println_two,
        Println_four, World.emit, World.init, *] <;>
        (try split) <;>
        simp [apiCalls, apiCalls_cons, apiCalls_map_stdout, ApiCall.kind]
  · by_cases hnr : name = "" ∨ region = ""
    · simp [main, rootCmd.Execute, bucketCmd.PersistentPreRunE, Subcommand.Name, Println_one,
        World.emit, World.init, apiCalls, hnr]
    obtain ⟨hname, hregion⟩ := not_or.mp hnr
    by_cases hk : key = ""
    · rcases hp with hp | hp <;>
        simp [main, rootCmd.Execute, bucketCmd.PersistentPreRunE, Subcommand.Name, Subcommand.Run,
          deleteObjectCmd.Run, Println_one, Println_two, Println_four, World.emit, World.init, apiCalls,
          hnr, hk, hp]
    rcases hcfg : env.LoadDefaultConfig (regionalOpts profile region) with e | cfg
    · rcases hp with hp | hp <;> simp [regionalOpts, hp] at hcfg <;>
      simp [main, rootCmd.Execute, bucketCmd.PersistentPreRunE, Subcommand.Name, Subcommand.Run,
        deleteObjectCmd.Run, Client.DeleteObject,
        config.LoadDefaultConfig, s3.NewFromConfig, apiCalls_cons, apiCalls_map_stdout, ApiCall.kind, Subcommand.api, Println_one, Println_two,
        Println_four, World.emit, World.init, *] <;>
      simp [apiCalls]
    rcases hres : env.DeleteObject cfg name key with e | r
    all_goals
      rcases hp with hp | hp <;> simp [regionalOpts, hp] at hcfg <;>
        simp [main, rootCmd.Execute, bucketCmd.PersistentPreRunE, Subcommand.Name, Subcommand.Run,
        deleteObjectCmd.Run, Client.DeleteObject,
        config.LoadDefaultConfig, s3.NewFromConfig, apiCalls_cons, apiCalls_map_stdout, ApiCall.kind, Subcommand.api, Println_one, Println_two,
        Println_four, World.emit, World.init, *] <;>
        simp [apiCalls]

/-- A run of `upload` in which the local file is never opened issues no call;
this is so whenever the environment denies the open or the path does not exist. -/
theorem upload_no_call_unless_opened (env : Env) (flags : Flags) (fs : FileSystem) :
    (Event.acquired (Handle.localFile flags.file)
          ∉ (main env Subcommand.upload flags fs).2.trace →
        apiCalls (main env Subcommand.upload flags fs).2.trace = [])
      ∧ ((env.openDenied flags.file ≠ none ∨ fs flags.file = none) →
        Event.acquired (Handle.localFile flags.file)
            ∉ (main env Subcommand.upload flags fs).2.trace
          ∧ apiCalls (main env Subcommand.upload flags fs).2.trace = []) := by
  obtain ⟨name, region, profile, file, key, output, pfx⟩ := flags
  have hp := Classical.em (profile = "")
  by_cases hnr : name = "" ∨ region = ""
  · simp [main, rootCmd.Execute, bucketCmd.PersistentPreRunE, Subcommand.Name, Println_one,
      World.emit, World.init, apiCalls, hnr]
  obtain ⟨hname, hregion⟩ := not_or.mp hnr
  by_cases hk : file = "" ∨ key = ""
  · rcases hp with hp | hp <;>
      simp [main, rootCmd.Execute, bucketCmd.PersistentPreRunE, Subcommand.Name, Subcommand.Run,
        uploadCmd.Run, Println_one, Println_two, Println_four, World.emit, World.init, apiCalls,
        hnr, hk, hp]
  obtain ⟨hk1, hk2⟩ := not_or.mp hk
  rcases hcfg : env.LoadDefaultConfig (regionalOpts profile region) with e | cfg
  · rcases hp with hp | hp <;> simp [regionalOpts, hp] at hcfg <;>
      simp [main, rootCmd.Execute, bucketCmd.PersistentPreRunE, Subcommand.Name, Subcommand.Run,
        uploadCmd.Run, config.LoadDefaultConfig, Println_one, Println_two, Println_four,
        World.emit, World.init, apiCalls, *]
  rcases hden : env.openDenied file with _ | e
  swap
  · rcases hp with hp | hp <;> simp [regionalOpts, hp] at hcfg <;>
      simp [main, rootCmd.Execute, bucketCmd.PersistentPreRunE, Subcommand.Name, Subcommand.Run,
        uploadCmd.Run, config.LoadDefaultConfig, s3.NewFromConfig, os.Open, Println_one,
        Println_two, Println_four, World.emit, World.init, apiCalls, *]
  rcases hfile : fs file with _ | contents
  · rcases hp with hp | hp <;> simp [regionalOpts, hp] at hcfg <;>
      simp [main, rootCmd.Execute, bucketCmd.PersistentPreRunE, Subcommand.Name, Subcommand.Run,
        uploadCmd.Run, config.LoadDefaultConfig, s3.NewFromConfig, os.Open, Println_one,
        Println_two, Println_four, World.emit, World.init, apiCalls, *]
  rcases hres : env.PutObject cfg name key { path := file, contents := contents } with e | r
  all_goals
    rcases hp with hp | hp <;> simp [regionalOpts, hp] at hcfg <;>
      simp [main, rootCmd.Execute, bucketCmd.PersistentPreRunE, Subcommand.Name, Subcommand.Run,
        uploadCmd.Run, config.LoadDefaultConfig, s3.NewFromConfig, Client.PutObject, os.Open,
        Close, Println_one, Println_two, Println_four, World.emit, World.init, apiCalls, *]

/-- C9, as amended: in every run at most one provider API call is issued; a run
in which the client was built issues exactly one call, the one of its subcommand
(CreateBucket, DeleteBucket, ListBuckets, GetBucketLocation, PutObject,
GetObject, ListObjectsV2, DeleteObject), provided that for `upload` the local
file was opened; and a run of `upload` in which the local file was not opened,
as happens whenever the open is denied or the path does not exist, issues no
call at all. -/
theorem C9_one_call_when_client_built (env : Env) (cmd : Subcommand) (flags : Flags)
    (fs : FileSystem) :
    (apiCalls (main env cmd flags fs).2.trace).length ≤ 1
      ∧ (∀ cfg, Event.newClient cfg ∈ (main env cmd flags fs).2.trace →
          (cmd = Subcommand.upload →
            Event.acquired (Handle.localFile flags.file) ∈ (main env cmd flags fs).2.trace) →
          (apiCalls (main env cmd flags fs).2.trace).map ApiCall.kind = [cmd.api])
      ∧ (cmd = Subcommand.upload →
          Event.acquired (Handle.localFile flags.file) ∉ (main env cmd flags fs).2.trace →
          apiCalls (main env cmd flags fs).2.trace = [])
      ∧ (cmd = Subcommand.upload →
          (env.openDenied flags.file ≠ none ∨ fs flags.file = none) →
          Event.acquired (Handle.localFile flags.file) ∉ (main env cmd flags fs).2.trace
            ∧ apiCalls (main env cmd flags fs).2.trace = []) := by
  refine ⟨(one_call_of_client_built env cmd flags fs).1,
    (one_call_of_client_built env cmd flags fs).2, ?_, ?_⟩
  · intro h
    subst h
    exact (upload_no_call_unless_opened env flags fs).1
  · intro h
    subst h
    exact (upload_no_call_unless_opened env flags fs).2

/-- Witness of C9: `bucket upload` of the existing file `in.bin` issues the single
call PutObject, and `bucket upload` of a path that does not exist issues none. -/
theorem C9_one_call_when_client_built_witness :
    (apiCalls (main demoEnv Subcommand.upload
        { name := "mybucket", region := "eu-west-1", file := "in.bin", key := "k" }
        demoFs).2.trace).map ApiCall.kind = [ApiKind.PutObject]
      ∧ apiCalls (main demoEnv Subcommand.upload
        { name := "mybucket", region := "eu-west-1", file := "absent.bin", key := "k" }
        demoFs).2.trace = [] :=
  ⟨(C9_one_call_when_client_built demoEnv Subcommand.upload
      { name := "mybucket", region := "eu-west-1", file := "in.bin", key := "k" } demoFs).2.1
    { opts := [CfgOpt.WithRegion "eu-west-1"] } (by decide) (fun _ => by decide),
   ((C9_one_call_when_client_built demoEnv Subcommand.upload
      { name := "mybucket", region := "eu-west-1", file := "absent.bin", key := "k" }
      demoFs).2.2.2 rfl (Or.inr rfl)).2⟩

/-- Counterexample to C10 as stated: `bucket upload` without `--key` prints its
validation message and the process ends with exit status 0, not 1. -/
theorem C10_counterexample_upload_exit_status :
    (main demoEnv Subcommand.upload
        { name := "mybucket", region := "eu-west-1", file := "in.bin" } demoFs).1 = 0
      ∧ stdoutWrites (main demoEnv Subcommand.upload
          { name := "mybucket", region := "eu-west-1", file := "in.bin" } demoFs).2.trace
        = ["Using bucket: mybucket in eu-west-1\n", "You must provide both --file and --key\n"] := by
  decide

/-- C10, as amended: an empty `--name` or `--region` on a command other than
`list` makes the run print the error and end with exit status 1; with name and
region given, an empty `--file` or `--key` on `upload`, an empty `--key` or
`--output` on `download` and an empty `--key` on `delete-object` make the run
print the validation message of the command last and end with exit status 0.
In all these runs nothing but printing happens and the file system is unchanged. -/
theorem C10_validation_failure_outcomes (env : Env) (flags : Flags) (fs : FileSystem) :
    (∀ cmd, cmd ≠ Subcommand.list → (flags.name = "" ∨ flags.region = "") →
        (main env cmd flags fs).1 = 1
          ∧ stdoutWrites (main env cmd flags fs).2.trace
            = ["bucket and region must be set via flags\n"]
          ∧ (∀ e ∈ (main env cmd flags fs).2.trace, e.isEffect = false)
          ∧ (main env cmd flags fs).2.files = fs)
      ∧ (flags.name ≠ "" → flags.region ≠ "" →
        ((flags.file = "" ∨ flags.key = "") →
          (main env Subcommand.upload flags fs).1 = 0
            ∧ stdoutWrites (main env Subcommand.upload flags fs).2.trace
              = preRunWrites flags ++ ["You must provide both --file and --key\n"]
            ∧ (∀ e ∈ (main env Subcommand.upload flags fs).2.trace, e.isEffect = false)
            ∧ (main env Subcommand.upload flags fs).2.files = fs)
        ∧ ((flags.key = "" ∨ flags.output = "") →
          (main env Subcommand.download flags fs).1 = 0
            ∧ stdoutWrites (main env Subcommand.download flags fs).2.trace
              = preRunWrites flags ++ ["You must provide both --key and --output\n"]
            ∧ (∀ e ∈ (main env Subcommand.download flags fs).2.trace, e.isEffect = false)
            ∧ (main env Subcommand.download flags fs).2.files = fs)
        ∧ (flags.key = "" →
          (main env Subcommand.deleteObject flags fs).1 = 0
            ∧ stdoutWrites (main env Subcommand.deleteObject flags fs).2.trace
              = preRunWrites flags ++ ["You must provide --key to delete an object\n"]
            ∧ (∀ e ∈ (main env Subcommand.deleteObject flags fs).2.trace, e.isEffect = false)
            ∧ (main env Subcommand.deleteObject flags fs).2.files = fs)) := by
  obtain ⟨name, region, profile, file, key, output, pfx⟩ := flags
  have hp := Classical.em (profile = "")
  constructor
  · intro cmd hcmd h
    simp only at h
    cases cmd <;>
      simp_all [main, rootCmd.Execute, bucketCmd.PersistentPreRunE, Subcommand.Name, stdoutWrites,
        Event.isEffect, Println_one, World.emit, World.init]
  · intro hname hregion
    simp only at hname hregion
    refine ⟨fun h => ?_, fun h => ?_, fun h => ?_⟩ <;> simp only at h <;>
      rcases hp with hp | hp <;>
      simp [main, rootCmd.Execute, bucketCmd.PersistentPreRunE, Subcommand.Name, Subcommand.Run,
        uploadCmd.Run, downloadCmd.Run, deleteObjectCmd.Run, stdoutWrites, preRunWrites,
        Event.isEffect, Println_one, Println_two, Println_four, World.emit, World.init, *] <;>
      simp [String.ext_iff]

/-- Witness of C10: `bucket info` without a region ends with status 1, and
`bucket delete-object` without `--key` ends with status 0. -/
theorem C10_validation_failure_outcomes_witness :
    (main demoEnv Subcommand.info { name := "mybucket" } demoFs).1 = 1
      ∧ (main demoEnv Subcommand.deleteObject { name := "mybucket", region := "eu-west-1" }
          demoFs).1 = 0
      ∧ stdoutWrites (main demoEnv Subcommand.deleteObject
          { name := "mybucket", region := "eu-west-1" } demoFs).2.trace
        = ["Using bucket: mybucket in eu-west-1\n",
           "You must provide --key to delete an object\n"] :=
  ⟨((C10_validation_failure_outcomes demoEnv { name := "mybucket" } demoFs).1
      Subcommand.info (by decide) (Or.inr rfl)).1,
   (((C10_validation_failure_outcomes demoEnv { name := "mybucket", region := "eu-west-1" }
      demoFs).2 (by decide) (by decide)).2.2 rfl).1,
   (((C10_validation_failure_outcomes demoEnv { name := "mybucket", region := "eu-west-1" }
      demoFs).2 (by decide) (by decide)).2.2 rfl).2.1⟩

end SimpleS3
